import Mathlib

/-!
# Event log application (`src/App.js`)

A shallow embedding of the single React Native component of the repository:
its eight pieces of component state, the `events` table of `events.db`, and the
handlers `refreshEvents`, `addEvent`, `selectImage`, `deleteEvent`, `editEvent`,
`updateEvent`, `closeModal` and the card `onPress` handler.

Everything the handlers obtain from outside the component (the clock, the time
zone, the media-library permission, the picker result, whether a statement
fails) is passed in explicitly as an `Env`.  Everything they do to the outside
(alerts, console output, permission requests, SQL statements) is appended to a
trace of `Effect`s, so that "no storage statement was issued" or "the message
was shown once" are statements about that trace.
-/

namespace EventLog

/-! ## JavaScript `Date` -/

/-- A valid JavaScript `Date`: its time value, in milliseconds since the epoch (UTC). -/
structure JSDate where
  time : Int
deriving DecidableEq, Repr

def msPerDay : Int := 86400000
def msPerHour : Int := 3600000
def msPerMinute : Int := 60000
def msPerSecond : Int := 1000

/-- ECMAScript `Day(t)`: the day number of a time value. -/
def Day (t : Int) : Int := t / msPerDay

/-- ECMAScript `HourFromTime(t)`. -/
def HourFromTime (t : Int) : Nat := ((t / msPerHour) % 24).toNat

/-- ECMAScript `MinFromTime(t)`. -/
def MinFromTime (t : Int) : Nat := ((t / msPerMinute) % 60).toNat

/-- ECMAScript `SecFromTime(t)`. -/
def SecFromTime (t : Int) : Nat := ((t / msPerSecond) % 60).toNat

/-- ECMAScript `msFromTime(t)`. -/
def msFromTime (t : Int) : Nat := (t % msPerSecond).toNat

/-- A date of the proleptic Gregorian calendar; `month` counts from 0 as in JavaScript. -/
structure Civil where
  year : Int
  month : Nat
  day : Nat
deriving DecidableEq, Repr

/-- The Gregorian date of a day number (days since 1970-01-01), computed era by era
(an era is 400 years, 146097 days, starting on a 1st of March). -/
def civilFromDays (days : Int) : Civil :=
  let z := days + 719468
  let era := z / 146097
  let doe := z - era * 146097
  let yoe := (doe - doe / 1460 + doe / 36524 - doe / 146096) / 365
  let doy := doe - (365 * yoe + yoe / 4 - yoe / 100)
  let mp := (5 * doy + 2) / 153
  let d := doy - (153 * mp + 2) / 5 + 1
  let m := if mp < 10 then mp + 3 else mp - 9
  let y := yoe + era * 400 + (if m ≤ 2 then 1 else 0)
  ⟨y, (m - 1).toNat, d.toNat⟩

/-- ECMAScript `YearFromTime(t)`. -/
def YearFromTime (t : Int) : Int := (civilFromDays (Day t)).year

/-- ECMAScript `MonthFromTime(t)`, 0 for January. -/
def MonthFromTime (t : Int) : Nat := (civilFromDays (Day t)).month

/-- ECMAScript `DateFromTime(t)`, the day of the month. -/
def DateFromTime (t : Int) : Nat := (civilFromDays (Day t)).day

/-- ECMAScript `LocalTime(t)`; `localTZA` is the platform's offset of local time from
UTC, in milliseconds, at a given time value. -/
def LocalTime (localTZA : Int → Int) (t : Int) : Int := t + localTZA t

def JSDate.getFullYear (localTZA : Int → Int) (d : JSDate) : Int :=
  YearFromTime (LocalTime localTZA d.time)

def JSDate.getMonth (localTZA : Int → Int) (d : JSDate) : Nat :=
  MonthFromTime (LocalTime localTZA d.time)

def JSDate.getDate (localTZA : Int → Int) (d : JSDate) : Nat :=
  DateFromTime (LocalTime localTZA d.time)

def JSDate.getHours (localTZA : Int → Int) (d : JSDate) : Nat :=
  HourFromTime (LocalTime localTZA d.time)

def JSDate.getMinutes (localTZA : Int → Int) (d : JSDate) : Nat :=
  MinFromTime (LocalTime localTZA d.time)

/-- JavaScript `String.prototype.padStart(targetLength, padString)`. -/
def padStart (s : String) (targetLength : Nat) (padString : String) : String :=
  if targetLength ≤ s.length ∨ padString = "" then s
  else
    let fillLen := targetLength - s.length
    String.mk (((List.replicate fillLen padString.data).flatten).take fillLen) ++ s

/-- The year part of `Date.prototype.toISOString`: four digits for the years 0 to 9999,
otherwise a sign and six digits. -/
def isoYear (y : Int) : String :=
  if 0 ≤ y ∧ y ≤ 9999 then padStart (toString y.toNat) 4 "0"
  else (if y < 0 then "-" else "+") ++ padStart (toString y.natAbs) 6 "0"

/-- JavaScript `Date.prototype.toISOString`: `YYYY-MM-DDTHH:mm:ss.sssZ`, in UTC. -/
def JSDate.toISOString (d : JSDate) : String :=
  isoYear (YearFromTime d.time) ++ "-" ++
  padStart (toString (MonthFromTime d.time + 1)) 2 "0" ++ "-" ++
  padStart (toString (DateFromTime d.time)) 2 "0" ++ "T" ++
  padStart (toString (HourFromTime d.time)) 2 "0" ++ ":" ++
  padStart (toString (MinFromTime d.time)) 2 "0" ++ ":" ++
  padStart (toString (SecFromTime d.time)) 2 "0" ++ "." ++
  padStart (toString (msFromTime d.time)) 3 "0" ++ "Z"

/-- The `formattedDate` of `addEvent` (App.js lines 66-70). -/
def formattedDate (localTZA : Int → Int) (currentDate : JSDate) : String :=
  toString (currentDate.getFullYear localTZA) ++ "-" ++
  padStart (toString (currentDate.getMonth localTZA + 1)) 2 "0" ++ "-" ++
  padStart (toString (currentDate.getDate localTZA)) 2 "0" ++ " " ++
  padStart (toString (currentDate.getHours localTZA)) 2 "0" ++ ":" ++
  padStart (toString (currentDate.getMinutes localTZA)) 2 "0"

/-! ## The `events` table -/

/-- A row of the `events` table; `photo` is `none` for SQL `NULL`. -/
structure Event where
  id : Nat
  title : String
  description : String
  date : String
  photo : Option String
deriving DecidableEq, Repr

/-- The five statements the component sends, with their bound parameters. -/
inductive Statement where
  | createTable
  | selectAll
  | insert (title description date : String) (photo : Option String)
  | update (title description date : String) (id : Option Nat)
  | delete (id : Nat)
deriving DecidableEq, Repr

/-- The statement text as written in `App.js`. -/
def Statement.sql : Statement → String
  | .createTable =>
      "CREATE TABLE IF NOT EXISTS events (id INTEGER PRIMARY KEY AUTOINCREMENT, title TEXT, description TEXT, date TEXT, photo TEXT);"
  | .selectAll => "SELECT * FROM events"
  | .insert .. => "INSERT INTO events (title, description, date, photo) VALUES (?, ?, ?, ?)"
  | .update .. => "UPDATE events SET title = ?, description = ?, date = ? WHERE id = ?"
  | .delete .. => "DELETE FROM events WHERE id = ?"

/-- The table: its rows in the order `SELECT * FROM events` returns them, and the
AUTOINCREMENT counter (the largest rowid ever handed out). -/
structure Database where
  rows : List Event
  seq : Nat
deriving DecidableEq, Repr

/-- The largest rowid SQLite can assign. -/
def maxRowid : Nat := 9223372036854775807

/-- The largest id among the rows, 0 when there are none. -/
def largestId (rows : List Event) : Nat := (rows.map Event.id).foldr max 0

/-- The rowid an AUTOINCREMENT insert assigns: one more than the largest rowid ever used. -/
def Database.nextRowid (db : Database) : Nat := max db.seq (largestId db.rows) + 1

/-- One statement in its own transaction.  `fails` is the store reporting an error for
reasons outside the program; then, as for a rowid that cannot be assigned, nothing is
changed and the result is `none`.  Otherwise the new table and the result rows. -/
def Database.exec (db : Database) (fails : Bool) : Statement → Option (Database × List Event)
  | .createTable => if fails then none else some (db, [])
  | .selectAll => if fails then none else some (db, db.rows)
  | .insert title description date photo =>
      if fails ∨ maxRowid < db.nextRowid then none
      else some (⟨db.rows ++ [⟨db.nextRowid, title, description, date, photo⟩], db.nextRowid⟩, [])
  | .update title description date id =>
      if fails then none
      else some (⟨db.rows.map (fun e =>
        if some e.id = id then { e with title := title, description := description, date := date }
        else e), db.seq⟩, [])
  | .delete id =>
      if fails then none
      else some (⟨db.rows.filter (fun e => e.id ≠ id), db.seq⟩, [])

/-! ## Component state and environment -/

/-- The eight `useState` cells of `App` (App.js lines 20-27). -/
structure AppState where
  events : List Event
  title : String
  description : String
  date : JSDate
  selectedEvent : Option Event
  modalVisible : Bool
  isEditing : Bool
  editId : Option Nat
deriving DecidableEq, Repr

/-- What `ImagePicker.launchImageLibraryAsync` resolves to: the `cancelled` flag and the
URIs of `assets`. -/
structure PickerResult where
  cancelled : Bool
  assets : List String
deriving DecidableEq, Repr

/-- Everything one handler invocation obtains from outside the component. -/
structure Env where
  /-- Offset of local time from UTC in milliseconds, at a given time value. -/
  localTZA : Int → Int
  /-- The `status` of `requestMediaLibraryPermissionsAsync`. -/
  permissionStatus : String
  /-- The result of `launchImageLibraryAsync`. -/
  pickerResult : PickerResult
  /-- The clock when the handler body evaluates `new Date()`. -/
  now : Int
  /-- The clock when the success callback evaluates `new Date()`. -/
  nowAtCallback : Int
  /-- The store reports an error for the handler's INSERT, UPDATE or DELETE. -/
  writeFails : Bool
  /-- The store reports an error for the SELECT of `refreshEvents`. -/
  readFails : Bool

/-- What a handler does to the outside. -/
inductive Effect where
  | alert (message : String)
  | consoleLog (message : String)
  | requestMediaLibraryPermissions
  | launchImageLibrary
  | executeSql (stmt : Statement)
deriving DecidableEq, Repr

/-- The component state, the table, and the effects so far (oldest first). -/
structure World where
  app : AppState
  db : Database
  trace : List Effect
deriving DecidableEq, Repr

def World.emit (w : World) (e : Effect) : World := { w with trace := w.trace ++ [e] }

/-- The message of the `alert` in `addEvent`. -/
def validationMessage : String := "Por favor ingresa el título y la descripción del evento."

/-! ## The handlers -/

/-- `setupDatabase` (App.js lines 34-40): the statement has no callbacks.  A table that
is missing is identified with the empty table it is created as. -/
def setupDatabase (fails : Bool) (w : World) : World :=
  let w1 := w.emit (.executeSql .createTable)
  match w1.db.exec fails .createTable with
  | some (db, _) => { w1 with db := db }
  | none => w1

/-- `refreshEvents` (App.js lines 42-55). -/
def refreshEvents (env : Env) (w : World) : World :=
  let w1 := w.emit (.executeSql .selectAll)
  match w1.db.exec env.readFails .selectAll with
  | some (_, rows) => { w1 with app := { w1.app with events := rows } }
  | none => w1.emit (.consoleLog "Error al obtener los eventos:")

/-- `selectImage` (App.js lines 89-108).  The result is `some none` for `undefined`,
`some (some uri)` for a URI, and `none` when `result.assets[0].uri` throws. -/
def selectImage (env : Env) (w : World) : World × Option (Option String) :=
  let w1 := w.emit .requestMediaLibraryPermissions
  if env.permissionStatus ≠ "granted" then
    (w1.emit (.consoleLog "Permission to access camera roll denied"), some none)
  else
    let w2 := (w1.emit .launchImageLibrary).emit (.consoleLog "result")
    if !env.pickerResult.cancelled then
      match env.pickerResult.assets with
      | uri :: _ => (w2, some (some uri))
      | [] => (w2, none)
    else (w2, some none)

/-- `addEvent` (App.js lines 57-87). -/
def addEvent (env : Env) (w : World) : World :=
  if w.app.title = "" ∨ w.app.description = "" then
    w.emit (.alert validationMessage)
  else
    match selectImage env w with
    | (w1, none) => w1
    | (w1, some photo) =>
      let currentDate : JSDate := ⟨env.now⟩
      let stmt := Statement.insert w.app.title w.app.description
        (formattedDate env.localTZA currentDate) photo
      let w2 := w1.emit (.executeSql stmt)
      match w2.db.exec env.writeFails stmt with
      | some (db, _) =>
          refreshEvents env { w2 with
            db := db
            app := { w2.app with title := "", description := "", date := ⟨env.nowAtCallback⟩ } }
      | none => w2.emit (.consoleLog "Error al insertar el evento:")

/-- `deleteEvent` (App.js lines 110-123). -/
def deleteEvent (id : Nat) (env : Env) (w : World) : World :=
  let stmt := Statement.delete id
  let w1 := w.emit (.executeSql stmt)
  match w1.db.exec env.writeFails stmt with
  | some (db, _) => refreshEvents env { w1 with db := db }
  | none => w1.emit (.consoleLog "Error al eliminar el evento:")

/-- `editEvent` (App.js lines 125-131). -/
def editEvent (event : Event) (w : World) : World :=
  { w with app := { w.app with
      selectedEvent := some event
      title := event.title
      description := event.description
      isEditing := true
      editId := some event.id } }

/-- `updateEvent` (App.js lines 133-151). -/
def updateEvent (env : Env) (w : World) : World :=
  let stmt := Statement.update w.app.title w.app.description w.app.date.toISOString w.app.editId
  let w1 := w.emit (.executeSql stmt)
  match w1.db.exec env.writeFails stmt with
  | some (db, _) =>
      refreshEvents env { w1 with
        db := db
        app := { w1.app with
          title := "", description := "", date := ⟨env.nowAtCallback⟩
          isEditing := false, editId := none } }
  | none => w1.emit (.consoleLog "Error al actualizar el evento:")

/-- `closeModal` (App.js lines 153-156). -/
def closeModal (w : World) : World :=
  { w with app := { w.app with selectedEvent := none, modalVisible := false } }

/-- The `onPress` of a card body (App.js lines 162-165). -/
def viewDetails (item : Event) (w : World) : World :=
  { w with app := { w.app with selectedEvent := some item, modalVisible := true } }

/-- The `onChangeText` of the title field (App.js line 195). -/
def setTitle (text : String) (w : World) : World :=
  { w with app := { w.app with title := text } }

/-- The `onChangeText` of the description field (App.js line 201). -/
def setDescription (text : String) (w : World) : World :=
  { w with app := { w.app with description := text } }

/-- The `useState` defaults (App.js lines 20-27); `now` is the clock at the first render. -/
def initialState (now : Int) : AppState :=
  { events := [], title := "", description := "", date := ⟨now⟩
    selectedEvent := none, modalVisible := false, isEditing := false, editId := none }

/-- The first render followed by the mount effect (App.js lines 29-32) on a stored table. -/
def mount (env : Env) (db : Database) : World :=
  refreshEvents env (setupDatabase env.writeFails ⟨initialState env.now, db, []⟩)

/-! ## Sequences of user actions -/

/-- One user action (or the mount-time refresh), with what its handler obtains from outside. -/
inductive Op where
  | addEvent (env : Env)
  | updateEvent (env : Env)
  | deleteEvent (id : Nat) (env : Env)
  | refreshEvents (env : Env)
  | editEvent (event : Event)
  | viewDetails (item : Event)
  | closeModal
  | setTitle (text : String)
  | setDescription (text : String)

/-- Run the handler of an action to completion. -/
def Op.apply : Op → World → World
  | .addEvent env => EventLog.addEvent env
  | .updateEvent env => EventLog.updateEvent env
  | .deleteEvent id env => EventLog.deleteEvent id env
  | .refreshEvents env => EventLog.refreshEvents env
  | .editEvent event => EventLog.editEvent event
  | .viewDetails item => EventLog.viewDetails item
  | .closeModal => EventLog.closeModal
  | .setTitle text => EventLog.setTitle text
  | .setDescription text => EventLog.setDescription text

/-- No statement of the handler is failed by the store. -/
def Env.noStorageFailure (env : Env) : Prop := env.writeFails = false ∧ env.readFails = false

/-- The action runs without a storage failure. -/
def Op.noStorageFailure : Op → Prop
  | .addEvent env => env.noStorageFailure
  | .updateEvent env => env.noStorageFailure
  | .deleteEvent _ env => env.noStorageFailure
  | .refreshEvents env => env.noStorageFailure
  | _ => True

/-- The clock reading a success callback of the action would store as transient date. -/
def Op.callbackTime : Op → Option Int
  | .addEvent env => some env.nowAtCallback
  | .updateEvent env => some env.nowAtCallback
  | _ => none

/-- Run actions one at a time, each to completion, oldest first. -/
def run (ops : List Op) (w : World) : World := ops.foldl (fun acc op => op.apply acc) w

/-! ## Reading a trace -/

/-- The messages shown to the user, oldest first. -/
def alerts (trace : List Effect) : List String :=
  trace.filterMap (fun e => match e with | .alert m => some m | _ => none)

/-- The SQL statements issued, oldest first. -/
def statements (trace : List Effect) : List Statement :=
  trace.filterMap (fun e => match e with | .executeSql s => some s | _ => none)

/-- How often the photo-selection flow was entered. -/
def photoFlows (trace : List Effect) : Nat :=
  trace.count .requestMediaLibraryPermissions

/-! ## Date patterns -/

/-- The two decimal digits of a number below 100. -/
def twoDigits (n : Nat) : List Char := [Nat.digitChar (n / 10), Nat.digitChar (n % 10)]

/-- The creation format `YYYY-MM-DD HH:MM`: 16 characters, `-` at 4 and 7, a space at 10,
`:` at 13, decimal digits elsewhere. -/
def isCreationFormat (s : String) : Bool :=
  s.length == 16 && (List.range 16).all (fun i =>
    let c := s.data.getD i 'x'
    if i == 4 || i == 7 then c == '-'
    else if i == 10 then c == ' '
    else if i == 13 then c == ':'
    else c.isDigit)

/-! ## Example inputs -/

def utc : Int → Int := fun _ => 0

/-- Permission denied, at 2023-11-14 22:13:20.123 UTC, no failure. -/
def envDenied : Env :=
  { localTZA := utc, permissionStatus := "denied", pickerResult := ⟨true, []⟩
    now := 1700000000123, nowAtCallback := 1700000000456
    writeFails := false, readFails := false }

/-- As `envDenied`, but the INSERT, UPDATE or DELETE fails. -/
def envWriteFails : Env := { envDenied with writeFails := true }

def sampleRows : List Event :=
  [⟨1, "a", "first", "2023-11-14 22:13", none⟩,
   ⟨2, "b", "second", "2023-11-14 22:14", some "file://p.jpg"⟩,
   ⟨3, "c", "third", "2023-11-14 22:15", none⟩]

/-- The component as launched at 2023-07-22 04:26:40 UTC over `sampleRows`, loaded. -/
def sampleWorld : World :=
  { app := { initialState 1690000000000 with events := sampleRows }
    db := ⟨sampleRows, 3⟩, trace := [] }

/-- The second row of `sampleRows`, the one with a photo. -/
def sampleRow2 : Event := ⟨2, "b", "second", "2023-11-14 22:14", some "file://p.jpg"⟩

/-- Row 2 is being edited and has then been deleted. -/
def sampleVanished : World := deleteEvent 2 envDenied (editEvent sampleRow2 sampleWorld)

/-- `sampleWorld` with the drafts typed in. -/
def sampleDraft : World := setDescription "D" (setTitle "T" sampleWorld)

/-! ## Calendar and rendering lemmas -/

/-- Known dates: the epoch, the day before it, the leap days of 2000 and 2024, the day
after 1900-02-28 (1900 is no leap year), and the first day of the year 10000. -/
theorem civilFromDays_samples :
    civilFromDays 0 = ⟨1970, 0, 1⟩ ∧ civilFromDays (-1) = ⟨1969, 11, 31⟩ ∧
    civilFromDays 11016 = ⟨2000, 1, 29⟩ ∧
    civilFromDays 19782 = ⟨2024, 1, 29⟩ ∧ civilFromDays 19783 = ⟨2024, 2, 1⟩ ∧
    civilFromDays (-25509) = ⟨1900, 1, 28⟩ ∧ civilFromDays (-25508) = ⟨1900, 2, 1⟩ ∧
    civilFromDays 2932897 = ⟨10000, 0, 1⟩ := by
  decide

theorem civilFromDays_month_lt (z : Int) : (civilFromDays z).month < 12 := by
  simp only [civilFromDays]
  split <;> omega

theorem civilFromDays_day_bounds (z : Int) :
    1 ≤ (civilFromDays z).day ∧ (civilFromDays z).day ≤ 31 := by
  simp only [civilFromDays]
  omega

theorem HourFromTime_lt (t : Int) : HourFromTime t < 24 := by
  simp only [HourFromTime, msPerHour]; omega

theorem MinFromTime_lt (t : Int) : MinFromTime t < 60 := by
  simp only [MinFromTime, msPerMinute]; omega

theorem padStart_two (n : Nat) (h : n < 100) :
    (padStart (toString n) 2 "0").data = twoDigits n := by
  revert n
  decide

theorem digitChar_isDigit (k : Nat) (h : k < 10) : (Nat.digitChar k).isDigit = true := by
  revert k
  decide

theorem toDigits_four (y : Nat) (h1 : 1000 ≤ y) (h2 : y ≤ 9999) :
    Nat.toDigits 10 y = [Nat.digitChar (y / 1000), Nat.digitChar (y / 100 % 10),
      Nat.digitChar (y / 10 % 10), Nat.digitChar (y % 10)] := by
  obtain ⟨k, rfl⟩ : ∃ k, y = k + 4 := ⟨y - 4, by omega⟩
  have e1 : (k + 4) / 10 ≠ 0 := by omega
  have e2 : (k + 4) / 10 / 10 ≠ 0 := by omega
  have e3 : (k + 4) / 10 / 10 / 10 ≠ 0 := by omega
  have e4 : (k + 4) / 10 / 10 / 10 / 10 = 0 := by omega
  have a1 : (k + 4) / 10 / 10 / 10 = (k + 4) / 1000 := by omega
  have a2 : (k + 4) / 10 / 10 = (k + 4) / 100 := by omega
  have a3 : (k + 4) / 1000 % 10 = (k + 4) / 1000 := by omega
  simp only [Nat.toDigits, Nat.toDigitsCore, e1, e2, e3, e4, if_true, if_false]
  rw [a1, a2, a3]

theorem toString_year (y : Int) (h1 : 1000 ≤ y) (h2 : y ≤ 9999) :
    (toString y).data = [Nat.digitChar (y.toNat / 1000), Nat.digitChar (y.toNat / 100 % 10),
      Nat.digitChar (y.toNat / 10 % 10), Nat.digitChar (y.toNat % 10)] := by
  obtain ⟨n, rfl⟩ : ∃ n : Nat, y = (n : Int) := ⟨y.toNat, by omega⟩
  have hn1 : 1000 ≤ n := by omega
  have hn2 : n ≤ 9999 := by omega
  show (Nat.repr n).data = _
  unfold Nat.repr
  rw [toDigits_four n hn1 hn2]
  rfl

theorem getMonth_lt (localTZA : Int → Int) (d : JSDate) : d.getMonth localTZA < 12 :=
  civilFromDays_month_lt _

theorem getDate_bounds (localTZA : Int → Int) (d : JSDate) :
    1 ≤ d.getDate localTZA ∧ d.getDate localTZA ≤ 31 :=
  civilFromDays_day_bounds _

theorem getHours_lt (localTZA : Int → Int) (d : JSDate) : d.getHours localTZA < 24 :=
  HourFromTime_lt _

theorem getMinutes_lt (localTZA : Int → Int) (d : JSDate) : d.getMinutes localTZA < 60 :=
  MinFromTime_lt _

theorem formattedDate_data (localTZA : Int → Int) (d : JSDate)
    (h1 : 1000 ≤ d.getFullYear localTZA) (h2 : d.getFullYear localTZA ≤ 9999) :
    (formattedDate localTZA d).data =
      [Nat.digitChar ((d.getFullYear localTZA).toNat / 1000),
       Nat.digitChar ((d.getFullYear localTZA).toNat / 100 % 10),
       Nat.digitChar ((d.getFullYear localTZA).toNat / 10 % 10),
       Nat.digitChar ((d.getFullYear localTZA).toNat % 10), '-'] ++
      twoDigits (d.getMonth localTZA + 1) ++ ['-'] ++ twoDigits (d.getDate localTZA) ++ [' '] ++
      twoDigits (d.getHours localTZA) ++ [':'] ++ twoDigits (d.getMinutes localTZA) := by
  have hm := getMonth_lt localTZA d
  have hd := getDate_bounds localTZA d
  have hh := getHours_lt localTZA d
  have hn := getMinutes_lt localTZA d
  simp only [formattedDate, String.data_append, toString_year _ h1 h2,
    padStart_two (d.getMonth localTZA + 1) (by omega), padStart_two (d.getDate localTZA) (by omega),
    padStart_two (d.getHours localTZA) (by omega), padStart_two (d.getMinutes localTZA) (by omega)]
  rfl

theorem flatten_replicate_zero (k : Nat) :
    (List.replicate k ['0']).flatten = List.replicate k '0' := by
  induction k with
  | zero => rfl
  | succ k ih => simp [List.replicate_succ, ih]

theorem padStart_length (s : String) (n : Nat) : n ≤ (padStart s n "0").length := by
  unfold padStart
  split
  · rename_i h
    rcases h with h | h
    · exact h
    · exact absurd h (by decide)
  · rename_i h
    have hlt : s.length < n := by
      by_contra hc
      exact h (Or.inl (by omega))
    have hs : "0".data = ['0'] := rfl
    rw [String.length_append, hs, flatten_replicate_zero]
    have e : (String.mk (List.take (n - s.length) (List.replicate (n - s.length) '0'))).length
        = n - s.length := by
      show (List.take (n - s.length) (List.replicate (n - s.length) '0')).length = _
      simp
    omega

/-- An ISO-8601 rendering is at least 20 characters long. -/
theorem toISOString_length (d : JSDate) : 20 ≤ d.toISOString.length := by
  simp only [JSDate.toISOString, String.length_append]
  have h2a := padStart_length (toString (MonthFromTime d.time + 1)) 2
  have h2b := padStart_length (toString (DateFromTime d.time)) 2
  have h2c := padStart_length (toString (HourFromTime d.time)) 2
  have h2d := padStart_length (toString (MinFromTime d.time)) 2
  have h2e := padStart_length (toString (SecFromTime d.time)) 2
  have h3 := padStart_length (toString (msFromTime d.time)) 3
  have e1 : "-".length = 1 := rfl
  have e2 : "T".length = 1 := rfl
  have e3 : ":".length = 1 := rfl
  have e4 : ".".length = 1 := rfl
  have e5 : "Z".length = 1 := rfl
  omega

theorem toISOString_not_creation (d : JSDate) : isCreationFormat d.toISOString = false := by
  have h := toISOString_length d
  simp only [isCreationFormat, Bool.and_eq_false_imp, beq_iff_eq]
  intro h16
  omega

theorem toISOString_last (d : JSDate) : d.toISOString.data.getLast? = some 'Z' := by
  have hz : "Z".data = ['Z'] := rfl
  simp only [JSDate.toISOString]
  rw [String.data_append, hz, List.getLast?_append]
  rfl

theorem formattedDate_last (localTZA : Int → Int) (d : JSDate) :
    (formattedDate localTZA d).data.getLast? =
      some (Nat.digitChar (d.getMinutes localTZA % 10)) := by
  have hn := getMinutes_lt localTZA d
  simp only [formattedDate]
  rw [String.data_append, padStart_two (d.getMinutes localTZA) (by omega), twoDigits,
    List.getLast?_append]
  rfl

theorem digitChar_ne_Z (k : Nat) (h : k < 10) : Nat.digitChar k ≠ 'Z' := by
  revert k
  decide

/-- An ISO-8601 rendering ends in `Z`, a creation timestamp in a digit. -/
theorem toISOString_ne_formattedDate (d : JSDate) (localTZA : Int → Int) (c : JSDate) :
    d.toISOString ≠ formattedDate localTZA c := by
  intro h
  have h1 := toISOString_last d
  rw [h, formattedDate_last] at h1
  have hk : c.getMinutes localTZA % 10 < 10 := by omega
  exact digitChar_ne_Z _ hk (Option.some.inj h1)

/-! ## Trace and handler lemmas -/

theorem alerts_append (a b : List Effect) : alerts (a ++ b) = alerts a ++ alerts b := by
  simp [alerts]

theorem statements_append (a b : List Effect) :
    statements (a ++ b) = statements a ++ statements b := by
  simp [statements]

theorem photoFlows_append (a b : List Effect) :
    photoFlows (a ++ b) = photoFlows a + photoFlows b := by
  simp [photoFlows]

/-- The photo flow touches neither the component state nor the table; it only appends
permission, picker and console effects. -/
theorem selectImage_world (env : Env) (w : World) :
    ∃ t : List Effect, (selectImage env w).1 = { w with trace := w.trace ++ t } ∧
      alerts t = [] ∧ statements t = [] := by
  unfold selectImage
  by_cases hp : env.permissionStatus = "granted"
  · cases hc : env.pickerResult.cancelled
    · cases ha : env.pickerResult.assets with
      | nil =>
        exact ⟨[.requestMediaLibraryPermissions, .launchImageLibrary, .consoleLog "result"],
          by simp [hp, hc, ha, World.emit], rfl, rfl⟩
      | cons uri rest =>
        exact ⟨[.requestMediaLibraryPermissions, .launchImageLibrary, .consoleLog "result"],
          by simp [hp, hc, ha, World.emit], rfl, rfl⟩
    · exact ⟨[.requestMediaLibraryPermissions, .launchImageLibrary, .consoleLog "result"],
        by simp [hp, hc, World.emit], rfl, rfl⟩
  · exact ⟨[.requestMediaLibraryPermissions,
        .consoleLog "Permission to access camera roll denied"],
      by simp [hp, World.emit], rfl, rfl⟩

/-- Without permission, or with a cancelled picker, the photo flow yields `undefined`. -/
theorem selectImage_no_photo (env : Env) (w : World)
    (h : env.permissionStatus ≠ "granted" ∨ env.pickerResult.cancelled = true) :
    (selectImage env w).2 = some none := by
  unfold selectImage
  by_cases hp : env.permissionStatus = "granted"
  · rcases h with h | h
    · exact absurd hp h
    · simp [hp, h]
  · simp [hp]

theorem refreshEvents_ok (env : Env) (w : World) (hr : env.readFails = false) :
    refreshEvents env w =
      { app := { w.app with events := w.db.rows }, db := w.db
        trace := w.trace ++ [.executeSql .selectAll] } := by
  simp [refreshEvents, World.emit, Database.exec, hr]

theorem refreshEvents_db (env : Env) (w : World) : (refreshEvents env w).db = w.db := by
  simp only [refreshEvents, World.emit, Database.exec]
  cases env.readFails <;> simp

/-- A refresh changes no cell of the component state other than `events`. -/
theorem refreshEvents_app (env : Env) (w : World) :
    (refreshEvents env w).app = { w.app with events := (refreshEvents env w).app.events } := by
  simp only [refreshEvents, World.emit, Database.exec]
  cases env.readFails <;> simp

theorem refreshEvents_alerts (env : Env) (w : World) :
    alerts (refreshEvents env w).trace = alerts w.trace := by
  simp only [refreshEvents, World.emit, Database.exec]
  cases env.readFails <;> simp [alerts]

/-- With non-empty drafts, `addEvent` is the photo flow followed by the INSERT and its
callbacks. -/
theorem addEvent_of_drafts (env : Env) (w : World)
    (hT : w.app.title ≠ "") (hD : w.app.description ≠ "") :
    addEvent env w =
      match (selectImage env w).2 with
      | none => (selectImage env w).1
      | some photo =>
        let stmt := Statement.insert w.app.title w.app.description
          (formattedDate env.localTZA ⟨env.now⟩) photo
        let w2 := (selectImage env w).1.emit (.executeSql stmt)
        match w2.db.exec env.writeFails stmt with
        | some (db, _) =>
            refreshEvents env { w2 with
              db := db
              app := { w2.app with title := "", description := "", date := ⟨env.nowAtCallback⟩ } }
        | none => w2.emit (.consoleLog "Error al insertar el evento:") := by
  have h : ¬ (w.app.title = "" ∨ w.app.description = "") := by
    rintro (h | h)
    · exact hT h
    · exact hD h
  simp only [addEvent, if_neg h]
  rcases hs : selectImage env w with ⟨w1, _ | photo⟩ <;> rfl

theorem largestId_ge (rows : List Event) (e : Event) (h : e ∈ rows) : e.id ≤ largestId rows := by
  induction rows with
  | nil => cases h
  | cons x xs ih =>
    simp only [largestId, List.map_cons, List.foldr_cons]
    rcases List.mem_cons.mp h with rfl | h
    · exact Nat.le_max_left _ _
    · exact Nat.le_trans (ih h) (Nat.le_max_right _ _)

theorem addEvent_of_empty_draft (env : Env) (w : World)
    (h : w.app.title = "" ∨ w.app.description = "") :
    addEvent env w = w.emit (.alert validationMessage) := by
  simp only [addEvent, if_pos h]

/-! ## The claims -/

/-- C1: with an empty draft title or an empty draft description `addEvent` only shows the
validation message, once: the table and the component state are unchanged, no statement
is issued, the photo flow is not entered, and a following refresh reads the same rows. -/
theorem addEvent_rejects_empty_draft (env : Env) (w : World)
    (h : w.app.title = "" ∨ w.app.description = "") :
    (addEvent env w).db = w.db ∧
    (addEvent env w).app = w.app ∧
    (addEvent env w).trace = w.trace ++ [Effect.alert validationMessage] ∧
    alerts (addEvent env w).trace = alerts w.trace ++ [validationMessage] ∧
    statements (addEvent env w).trace = statements w.trace ∧
    photoFlows (addEvent env w).trace = photoFlows w.trace ∧
    (∀ env2 : Env, (refreshEvents env2 (addEvent env w)).app.events.length =
      (refreshEvents env2 w).app.events.length) := by
  rw [addEvent_of_empty_draft env w h]
  refine ⟨rfl, rfl, rfl, ?_, ?_, ?_, ?_⟩
  · simp [World.emit, alerts]
  · simp [World.emit, statements]
  · simp [World.emit, photoFlows]
  · intro env2
    simp only [refreshEvents, World.emit, Database.exec]
    cases env2.readFails <;> simp

theorem addEvent_rejects_empty_draft_witness :
    ((setDescription "D" sampleWorld).app.title = "" ∨
      (setDescription "D" sampleWorld).app.description = "") ∧
    (addEvent envDenied (setDescription "D" sampleWorld)).db = sampleWorld.db ∧
    (addEvent envDenied (setDescription "D" sampleWorld)).app =
      (setDescription "D" sampleWorld).app ∧
    (addEvent envDenied (setDescription "D" sampleWorld)).trace =
      [Effect.alert validationMessage] :=
  have h := addEvent_rejects_empty_draft envDenied (setDescription "D" sampleWorld)
    (Or.inl (by decide))
  ⟨Or.inl (by decide), h.1, h.2.1, h.2.2.1⟩

/-- C2: with non-empty drafts T and D, no photo from the photo flow (permission not
"granted", or picker cancelled), a successful INSERT and a successful refresh, the table
and the cached list are the previous rows, unchanged and in order, followed by exactly
one new row with title T, description D, the formatted creation date and no photo; its
id is larger than every previous id. -/
theorem addEvent_without_photo (env : Env) (w : World)
    (hT : w.app.title ≠ "") (hD : w.app.description ≠ "")
    (hphoto : env.permissionStatus ≠ "granted" ∨ env.pickerResult.cancelled = true)
    (hw : env.writeFails = false) (hid : w.db.nextRowid ≤ maxRowid)
    (hr : env.readFails = false) :
    (addEvent env w).db.rows = w.db.rows ++
      [⟨w.db.nextRowid, w.app.title, w.app.description,
        formattedDate env.localTZA ⟨env.now⟩, none⟩] ∧
    (addEvent env w).app.events = (addEvent env w).db.rows ∧
    (addEvent env w).db.rows.length = w.db.rows.length + 1 ∧
    (∀ e ∈ w.db.rows, e.id < w.db.nextRowid) := by
  obtain ⟨t, ht, -, -⟩ := selectImage_world env w
  have hex : ¬ (maxRowid < w.db.nextRowid) := by omega
  have e : addEvent env w =
      { app := { w.app with
          events := w.db.rows ++ [⟨w.db.nextRowid, w.app.title, w.app.description,
            formattedDate env.localTZA ⟨env.now⟩, none⟩]
          title := "", description := "", date := ⟨env.nowAtCallback⟩ }
        db := ⟨w.db.rows ++ [⟨w.db.nextRowid, w.app.title, w.app.description,
            formattedDate env.localTZA ⟨env.now⟩, none⟩], w.db.nextRowid⟩
        trace := w.trace ++ t ++
          [.executeSql (.insert w.app.title w.app.description
            (formattedDate env.localTZA ⟨env.now⟩) none), .executeSql .selectAll] } := by
    rw [addEvent_of_drafts env w hT hD, selectImage_no_photo env w hphoto, ht]
    simp [World.emit, Database.exec, hw, hex, refreshEvents_ok _ _ hr]
  rw [e]
  refine ⟨rfl, rfl, by simp, ?_⟩
  intro x hx
  have := largestId_ge _ _ hx
  simp only [Database.nextRowid]
  omega

theorem addEvent_without_photo_witness :
    sampleDraft.app.title ≠ "" ∧ sampleDraft.app.description ≠ "" ∧
    (envDenied.permissionStatus ≠ "granted" ∨ envDenied.pickerResult.cancelled = true) ∧
    envDenied.writeFails = false ∧ sampleDraft.db.nextRowid ≤ maxRowid ∧
    envDenied.readFails = false ∧
    (addEvent envDenied sampleDraft).db.rows = sampleDraft.db.rows ++
      [⟨sampleDraft.db.nextRowid, sampleDraft.app.title, sampleDraft.app.description,
        formattedDate envDenied.localTZA ⟨envDenied.now⟩, none⟩] :=
  ⟨by decide, by decide, Or.inl (by decide), rfl, by decide, rfl,
    (addEvent_without_photo envDenied sampleDraft (by decide) (by decide) (Or.inl (by decide))
      rfl (by decide) rfl).1⟩

theorem isCreationFormat_of_data (s : String) (c0 c1 c2 c3 c4 c5 c6 c7 c8 c9 c10 c11 : Char)
    (h0 : c0.isDigit = true) (h1 : c1.isDigit = true) (h2 : c2.isDigit = true)
    (h3 : c3.isDigit = true) (h4 : c4.isDigit = true) (h5 : c5.isDigit = true)
    (h6 : c6.isDigit = true) (h7 : c7.isDigit = true) (h8 : c8.isDigit = true)
    (h9 : c9.isDigit = true) (h10 : c10.isDigit = true) (h11 : c11.isDigit = true)
    (h : s.data = [c0, c1, c2, c3, '-', c4, c5, '-', c6, c7, ' ', c8, c9, ':', c10, c11]) :
    isCreationFormat s = true := by
  have hr : List.range 16 = [0, 1, 2, 3, 4, 5, 6, 7, 8, 9, 10, 11, 12, 13, 14, 15] := by decide
  simp [isCreationFormat, String.length, h, hr, h0, h1, h2, h3, h4, h5, h6, h7, h8, h9, h10, h11]

/-- C3 as stated fails: at 10000-01-01 00:00 local time the year takes five characters,
so the stored string has 17 characters and is not of the form `YYYY-MM-DD HH:MM`. -/
theorem formattedDate_year_10000 :
    formattedDate utc ⟨253402300800000⟩ = "10000-01-01 00:00" ∧
    (formattedDate utc ⟨253402300800000⟩).length = 17 ∧
    isCreationFormat (formattedDate utc ⟨253402300800000⟩) = false := by
  decide

/-- C3 (amended): for every current local date/time whose local year is between 1000 and
9999, the creation timestamp is `YYYY-MM-DD HH:MM`: the four digits of the year, `-`, the
month (1 to 12) as two digits, `-`, the day of the month (1 to 31) as two digits, a
space, the hour (0 to 23) as two digits, `:`, the minute (0 to 59) as two digits; it has
exactly 16 characters, no seconds and no time-zone marker. -/
theorem formattedDate_pattern (localTZA : Int → Int) (currentDate : JSDate)
    (h1 : 1000 ≤ currentDate.getFullYear localTZA)
    (h2 : currentDate.getFullYear localTZA ≤ 9999) :
    (formattedDate localTZA currentDate).data =
      [Nat.digitChar ((currentDate.getFullYear localTZA).toNat / 1000),
       Nat.digitChar ((currentDate.getFullYear localTZA).toNat / 100 % 10),
       Nat.digitChar ((currentDate.getFullYear localTZA).toNat / 10 % 10),
       Nat.digitChar ((currentDate.getFullYear localTZA).toNat % 10), '-',
       Nat.digitChar ((currentDate.getMonth localTZA + 1) / 10),
       Nat.digitChar ((currentDate.getMonth localTZA + 1) % 10), '-',
       Nat.digitChar (currentDate.getDate localTZA / 10),
       Nat.digitChar (currentDate.getDate localTZA % 10), ' ',
       Nat.digitChar (currentDate.getHours localTZA / 10),
       Nat.digitChar (currentDate.getHours localTZA % 10), ':',
       Nat.digitChar (currentDate.getMinutes localTZA / 10),
       Nat.digitChar (currentDate.getMinutes localTZA % 10)] ∧
    (formattedDate localTZA currentDate).length = 16 ∧
    isCreationFormat (formattedDate localTZA currentDate) = true ∧
    (1 ≤ currentDate.getMonth localTZA + 1 ∧ currentDate.getMonth localTZA + 1 ≤ 12) ∧
    (1 ≤ currentDate.getDate localTZA ∧ currentDate.getDate localTZA ≤ 31) ∧
    currentDate.getHours localTZA ≤ 23 ∧ currentDate.getMinutes localTZA ≤ 59 := by
  have hm := getMonth_lt localTZA currentDate
  have hd := getDate_bounds localTZA currentDate
  have hh := getHours_lt localTZA currentDate
  have hn := getMinutes_lt localTZA currentDate
  have hdata := formattedDate_data localTZA currentDate h1 h2
  simp only [twoDigits, List.cons_append, List.nil_append] at hdata
  refine ⟨hdata, ?_, ?_, ⟨by omega, by omega⟩, hd, by omega, by omega⟩
  · simp only [String.length, hdata, List.length_cons, List.length_nil]
  · exact isCreationFormat_of_data _ _ _ _ _ _ _ _ _ _ _ _ _
      (digitChar_isDigit _ (by omega)) (digitChar_isDigit _ (by omega))
      (digitChar_isDigit _ (by omega)) (digitChar_isDigit _ (by omega))
      (digitChar_isDigit _ (by omega)) (digitChar_isDigit _ (by omega))
      (digitChar_isDigit _ (by omega)) (digitChar_isDigit _ (by omega))
      (digitChar_isDigit _ (by omega)) (digitChar_isDigit _ (by omega))
      (digitChar_isDigit _ (by omega)) (digitChar_isDigit _ (by omega)) hdata

theorem formattedDate_pattern_witness :
    1000 ≤ (⟨1700000000123⟩ : JSDate).getFullYear utc ∧
    (⟨1700000000123⟩ : JSDate).getFullYear utc ≤ 9999 ∧
    formattedDate utc ⟨1700000000123⟩ = "2023-11-14 22:13" ∧
    (formattedDate utc ⟨1700000000123⟩).length = 16 ∧
    isCreationFormat (formattedDate utc ⟨1700000000123⟩) = true :=
  have h := formattedDate_pattern utc ⟨1700000000123⟩ (by decide) (by decide)
  ⟨by decide, by decide, by decide, h.2.1, h.2.2.1⟩

theorem filter_ne_length (rows : List Event) (id : Nat)
    (hnd : (rows.map Event.id).Nodup) (hmem : id ∈ rows.map Event.id) :
    (rows.filter (fun e => e.id ≠ id)).length + 1 = rows.length := by
  induction rows with
  | nil => simp at hmem
  | cons x xs ih =>
    simp only [List.map_cons, List.nodup_cons] at hnd
    by_cases hx : x.id = id
    · have hne : ∀ a ∈ xs, ¬ a.id = id := by
        intro a ha heq
        exact hnd.1 (hx ▸ heq ▸ List.mem_map_of_mem Event.id ha)
      have hall : xs.filter (fun e => e.id ≠ id) = xs := by
        apply List.filter_eq_self.mpr
        intro e he
        simpa using hne e he
      rw [List.filter_cons]
      simp only [hx, ne_eq, not_true_eq_false, decide_False, Bool.false_eq_true, if_false]
      rw [hall]
      rfl
    · have hmem2 : id ∈ xs.map Event.id := by
        simp only [List.map_cons, List.mem_cons] at hmem
        rcases hmem with h | h
        · exact absurd h.symm hx
        · exact h
      have h := ih hnd.2 hmem2
      simp only [ne_eq] at h
      rw [List.filter_cons]
      simp only [ne_eq, hx, not_false_eq_true, decide_True, if_true, List.length_cons]
      omega

theorem deleteEvent_ok (id : Nat) (env : Env) (w : World)
    (hw : env.writeFails = false) (hr : env.readFails = false) :
    deleteEvent id env w =
      { app := { w.app with events := w.db.rows.filter (fun e => e.id ≠ id) }
        db := ⟨w.db.rows.filter (fun e => e.id ≠ id), w.db.seq⟩
        trace := w.trace ++ [.executeSql (.delete id), .executeSql .selectAll] } := by
  simp [deleteEvent, World.emit, Database.exec, hw, refreshEvents_ok _ _ hr]

/-- C4: on a table with pairwise distinct ids that contains id `i`, a successful
`deleteEvent i` and the refresh it triggers leave, in the table and in the cached list,
exactly the rows whose id is not `i`, unchanged and in their previous order; there is
one row fewer and no row with id `i`. -/
theorem deleteEvent_removes_exactly (i : Nat) (env : Env) (w : World)
    (hnd : (w.db.rows.map Event.id).Nodup) (hmem : i ∈ w.db.rows.map Event.id)
    (hw : env.writeFails = false) (hr : env.readFails = false) :
    (deleteEvent i env w).db.rows = w.db.rows.filter (fun e => e.id ≠ i) ∧
    (deleteEvent i env w).app.events = (deleteEvent i env w).db.rows ∧
    (deleteEvent i env w).db.rows.length + 1 = w.db.rows.length ∧
    (∀ e, e ∈ (deleteEvent i env w).db.rows ↔ e ∈ w.db.rows ∧ e.id ≠ i) ∧
    (deleteEvent i env w).db.rows.Sublist w.db.rows := by
  rw [deleteEvent_ok i env w hw hr]
  refine ⟨rfl, rfl, filter_ne_length _ _ hnd hmem, ?_, List.filter_sublist _⟩
  intro e
  simp [List.mem_filter]

theorem deleteEvent_removes_exactly_witness :
    (sampleWorld.db.rows.map Event.id).Nodup ∧ 2 ∈ sampleWorld.db.rows.map Event.id ∧
    envDenied.writeFails = false ∧ envDenied.readFails = false ∧
    (deleteEvent 2 envDenied sampleWorld).db.rows =
      sampleWorld.db.rows.filter (fun e => e.id ≠ 2) ∧
    (deleteEvent 2 envDenied sampleWorld).db.rows.length + 1 = sampleWorld.db.rows.length :=
  have h := deleteEvent_removes_exactly 2 envDenied sampleWorld (by decide) (by decide) rfl rfl
  ⟨by decide, by decide, rfl, rfl, h.1, h.2.2.1⟩

theorem updateEvent_ok (env : Env) (w : World) (hw : env.writeFails = false) :
    updateEvent env w =
      refreshEvents env
        { app := { w.app with
            title := "", description := "", date := ⟨env.nowAtCallback⟩
            isEditing := false, editId := none }
          db := ⟨w.db.rows.map (fun e =>
            if some e.id = w.app.editId then
              { e with title := w.app.title, description := w.app.description
                       date := w.app.date.toISOString }
            else e), w.db.seq⟩
          trace := w.trace ++ [.executeSql (.update w.app.title w.app.description
            w.app.date.toISOString w.app.editId)] } := by
  simp [updateEvent, World.emit, Database.exec, hw]

theorem eq_of_id_eq (rows : List Event) (hnd : (rows.map Event.id).Nodup)
    (a b : Event) (ha : a ∈ rows) (hb : b ∈ rows) (h : a.id = b.id) : a = b := by
  induction rows with
  | nil => cases ha
  | cons x xs ih =>
    simp only [List.map_cons, List.nodup_cons] at hnd
    rcases List.mem_cons.mp ha with hax | hax
    · rcases List.mem_cons.mp hb with hbx | hbx
      · rw [hax, hbx]
      · have : x.id ∈ xs.map Event.id := by
          rw [← hax, h]
          exact List.mem_map_of_mem Event.id hbx
        exact absurd this hnd.1
    · rcases List.mem_cons.mp hb with hbx | hbx
      · have : x.id ∈ xs.map Event.id := by
          rw [← hbx, ← h]
          exact List.mem_map_of_mem Event.id hax
        exact absurd this hnd.1
      · exact ih hnd.2 hax hbx

/-- C5: on a table with pairwise distinct ids, `editEvent r` for a row `r` of the table,
then new drafts T2 and D2, then a successful `updateEvent`, turn the row with the id of
`r` into that id, T2, D2, the ISO-8601 rendering of the transient date and the photo of
`r`; that rendering is never a creation-format string; every other row is unchanged and
in place, and the number of rows is unchanged. -/
theorem editEvent_then_updateEvent (env : Env) (w : World) (r : Event) (T2 D2 : String)
    (hnd : (w.db.rows.map Event.id).Nodup) (hr : r ∈ w.db.rows)
    (hw : env.writeFails = false) :
    (updateEvent env (setDescription D2 (setTitle T2 (editEvent r w)))).db.rows =
      w.db.rows.map (fun e =>
        if e.id = r.id then ⟨r.id, T2, D2, w.app.date.toISOString, r.photo⟩ else e) ∧
    (⟨r.id, T2, D2, w.app.date.toISOString, r.photo⟩ : Event) ∈
      (updateEvent env (setDescription D2 (setTitle T2 (editEvent r w)))).db.rows ∧
    (∀ e ∈ (updateEvent env (setDescription D2 (setTitle T2 (editEvent r w)))).db.rows,
      e.id = r.id → e = ⟨r.id, T2, D2, w.app.date.toISOString, r.photo⟩) ∧
    (∀ e ∈ (updateEvent env (setDescription D2 (setTitle T2 (editEvent r w)))).db.rows,
      e.id ≠ r.id → e ∈ w.db.rows) ∧
    (∀ e ∈ w.db.rows, e.id ≠ r.id →
      e ∈ (updateEvent env (setDescription D2 (setTitle T2 (editEvent r w)))).db.rows) ∧
    (updateEvent env (setDescription D2 (setTitle T2 (editEvent r w)))).db.rows.length =
      w.db.rows.length ∧
    isCreationFormat w.app.date.toISOString = false ∧
    (∀ localTZA d, w.app.date.toISOString ≠ formattedDate localTZA d) := by
  have hrows : (updateEvent env (setDescription D2 (setTitle T2 (editEvent r w)))).db.rows =
      w.db.rows.map (fun e =>
        if e.id = r.id then ⟨r.id, T2, D2, w.app.date.toISOString, r.photo⟩ else e) := by
    rw [updateEvent_ok _ _ hw, refreshEvents_db]
    simp only [setDescription, setTitle, editEvent]
    apply List.map_congr_left
    intro e he
    by_cases h : e.id = r.id
    · have : e = r := eq_of_id_eq _ hnd e r he hr h
      subst this
      simp
    · simp [h]
  rw [hrows]
  refine ⟨rfl, ?_, ?_, ?_, ?_, by simp, toISOString_not_creation _, ?_⟩
  · exact List.mem_map.mpr ⟨r, hr, by simp⟩
  · intro e he hid
    obtain ⟨a, ha, rfl⟩ := List.mem_map.mp he
    by_cases h : a.id = r.id
    · simp [h]
    · simp only [h, if_false] at hid
  · intro e he hid
    obtain ⟨a, ha, rfl⟩ := List.mem_map.mp he
    by_cases h : a.id = r.id
    · simp only [h, if_true] at hid
      exact absurd rfl hid
    · simpa [h] using ha
  · intro e he hid
    exact List.mem_map.mpr ⟨e, he, by simp [hid]⟩
  · intro localTZA d
    exact toISOString_ne_formattedDate _ _ _

theorem editEvent_then_updateEvent_witness :
    (sampleWorld.db.rows.map Event.id).Nodup ∧ sampleRow2 ∈ sampleWorld.db.rows ∧
    envDenied.writeFails = false ∧
    (updateEvent envDenied (setDescription "D2" (setTitle "T2"
      (editEvent sampleRow2 sampleWorld)))).db.rows =
      sampleWorld.db.rows.map (fun e =>
        if e.id = sampleRow2.id then
          ⟨sampleRow2.id, "T2", "D2", sampleWorld.app.date.toISOString, sampleRow2.photo⟩
        else e) :=
  ⟨by decide, by decide, rfl,
    (editEvent_then_updateEvent envDenied sampleWorld sampleRow2 "T2" "D2"
      (by decide) (by decide) rfl).1⟩

/-- C6: when the edit target id matches no row of the table, a non-failing `updateEvent`
leaves the table as it was, shows no message, and runs its success continuation: the
drafts are cleared, the editing flag is false, the edit id is null, and a refresh is
issued right after the UPDATE. -/
theorem updateEvent_missing_id (env : Env) (w : World)
    (hmiss : ∀ e ∈ w.db.rows, some e.id ≠ w.app.editId)
    (hw : env.writeFails = false) :
    (updateEvent env w).db = w.db ∧
    (updateEvent env w).db.rows.length = w.db.rows.length ∧
    alerts (updateEvent env w).trace = alerts w.trace ∧
    (updateEvent env w).app.title = "" ∧
    (updateEvent env w).app.description = "" ∧
    (updateEvent env w).app.isEditing = false ∧
    (updateEvent env w).app.editId = none ∧
    statements (updateEvent env w).trace = statements w.trace ++
      [.update w.app.title w.app.description w.app.date.toISOString w.app.editId,
       .selectAll] ∧
    (env.readFails = false → (updateEvent env w).app.events = w.db.rows) := by
  have hmap : w.db.rows.map (fun e =>
      if some e.id = w.app.editId then
        { e with title := w.app.title, description := w.app.description
                 date := w.app.date.toISOString }
      else e) = w.db.rows := by
    conv => rhs; rw [← List.map_id w.db.rows]
    apply List.map_congr_left
    intro e he
    simp [hmiss e he]
  rw [updateEvent_ok env w hw, hmap]
  refine ⟨?_, ?_, ?_, ?_, ?_, ?_, ?_, ?_, ?_⟩
  · rw [refreshEvents_db]
  · rw [refreshEvents_db]
  · rw [refreshEvents_alerts]; simp [alerts]
  · rw [refreshEvents_app]
  · rw [refreshEvents_app]
  · rw [refreshEvents_app]
  · rw [refreshEvents_app]
  · simp only [refreshEvents, World.emit, Database.exec]
    cases env.readFails <;> simp [statements]
  · intro hr
    rw [refreshEvents_ok _ _ hr]

theorem updateEvent_missing_id_witness :
    (∀ e ∈ sampleVanished.db.rows, some e.id ≠ sampleVanished.app.editId) ∧
    envDenied.writeFails = false ∧
    (updateEvent envDenied sampleVanished).db = sampleVanished.db ∧
    (updateEvent envDenied sampleVanished).app.editId = none :=
  have h := updateEvent_missing_id envDenied sampleVanished (by decide) rfl
  ⟨by decide, rfl, h.1, h.2.2.2.2.2.2.1⟩

theorem addEvent_keeps_cache (env : Env) (w : World) (hr : env.readFails = false)
    (h : w.app.events = w.db.rows) : (addEvent env w).app.events = (addEvent env w).db.rows := by
  by_cases he : w.app.title = "" ∨ w.app.description = ""
  · have := addEvent_of_empty_draft env w he
    rw [this]; exact h
  · have hT : w.app.title ≠ "" := fun c => he (Or.inl c)
    have hD : w.app.description ≠ "" := fun c => he (Or.inr c)
    obtain ⟨t, ht, -, -⟩ := selectImage_world env w
    rw [addEvent_of_drafts env w hT hD, ht]
    cases (selectImage env w).2 with
    | none => exact h
    | some photo =>
      simp only [World.emit]
      cases hx : Database.exec w.db env.writeFails (Statement.insert w.app.title w.app.description
          (formattedDate env.localTZA ⟨env.now⟩) photo) with
      | none => exact h
      | some p => simp [refreshEvents_ok _ _ hr]

theorem updateEvent_keeps_cache (env : Env) (w : World) (hr : env.readFails = false)
    (h : w.app.events = w.db.rows) :
    (updateEvent env w).app.events = (updateEvent env w).db.rows := by
  simp only [updateEvent, World.emit]
  cases hx : Database.exec w.db env.writeFails (Statement.update w.app.title w.app.description
      w.app.date.toISOString w.app.editId) with
  | none => exact h
  | some p => simp [refreshEvents_ok _ _ hr]

theorem deleteEvent_keeps_cache (id : Nat) (env : Env) (w : World) (hr : env.readFails = false)
    (h : w.app.events = w.db.rows) :
    (deleteEvent id env w).app.events = (deleteEvent id env w).db.rows := by
  simp only [deleteEvent, World.emit]
  cases hx : Database.exec w.db env.writeFails (Statement.delete id) with
  | none => exact h
  | some p => simp [refreshEvents_ok _ _ hr]

theorem apply_keeps_cache (op : Op) (w : World) (hop : op.noStorageFailure)
    (h : w.app.events = w.db.rows) : (op.apply w).app.events = (op.apply w).db.rows := by
  cases op with
  | addEvent env => exact addEvent_keeps_cache env w hop.2 h
  | updateEvent env => exact updateEvent_keeps_cache env w hop.2 h
  | deleteEvent id env => exact deleteEvent_keeps_cache id env w hop.2 h
  | refreshEvents env =>
    show (refreshEvents env w).app.events = (refreshEvents env w).db.rows
    rw [refreshEvents_ok _ _ hop.2]
  | editEvent event => exact h
  | viewDetails item => exact h
  | closeModal => exact h
  | setTitle text => exact h
  | setDescription text => exact h

theorem run_keeps_cache (ops : List Op) (w : World) (hops : ∀ op ∈ ops, op.noStorageFailure)
    (h : w.app.events = w.db.rows) : (run ops w).app.events = (run ops w).db.rows := by
  induction ops generalizing w with
  | nil => exact h
  | cons op rest ih =>
    show (run rest (op.apply w)).app.events = (run rest (op.apply w)).db.rows
    exact ih (op.apply w) (fun o ho => hops o (List.mem_cons_of_mem _ ho))
      (apply_keeps_cache op w (hops op (List.mem_cons_self _ _)) h)

theorem mount_cache (env : Env) (db : Database) (hr : env.readFails = false) :
    (mount env db).app.events = (mount env db).db.rows := by
  rw [mount, refreshEvents_ok _ _ hr]

/-- C7: after the initial load and any sequence of actions, each run to completion and
none with a storage failure, the cached list is the full table, in store order; the
initial load and every successful create, update or delete end by replacing the list
with all rows read; `editEvent`, viewing details and `closeModal` change neither the
table nor the list. -/
theorem events_cache_is_table (env : Env) (db : Database) (ops : List Op)
    (henv : env.noStorageFailure) (hops : ∀ op ∈ ops, op.noStorageFailure) :
    (run ops (mount env db)).app.events = (run ops (mount env db)).db.rows ∧
    (∀ (r : Event) (w : World),
      (editEvent r w).db = w.db ∧ (editEvent r w).app.events = w.app.events ∧
      (viewDetails r w).db = w.db ∧ (viewDetails r w).app.events = w.app.events ∧
      (closeModal w).db = w.db ∧ (closeModal w).app.events = w.app.events) :=
  ⟨run_keeps_cache ops _ hops (mount_cache env db henv.2),
    fun _ _ => ⟨rfl, rfl, rfl, rfl, rfl, rfl⟩⟩

theorem events_cache_is_table_witness :
    envDenied.noStorageFailure ∧
    (∀ op ∈ [Op.setTitle "T", Op.setDescription "D", Op.addEvent envDenied,
        Op.deleteEvent 2 envDenied, Op.closeModal], op.noStorageFailure) ∧
    (run [Op.setTitle "T", Op.setDescription "D", Op.addEvent envDenied,
        Op.deleteEvent 2 envDenied, Op.closeModal] (mount envDenied ⟨sampleRows, 3⟩)).app.events =
      (run [Op.setTitle "T", Op.setDescription "D", Op.addEvent envDenied,
        Op.deleteEvent 2 envDenied, Op.closeModal] (mount envDenied ⟨sampleRows, 3⟩)).db.rows :=
  have hops : ∀ op ∈ [Op.setTitle "T", Op.setDescription "D", Op.addEvent envDenied,
      Op.deleteEvent 2 envDenied, Op.closeModal], op.noStorageFailure := by
    intro op hop
    simp only [List.mem_cons, List.mem_singleton, List.mem_nil_iff, or_false] at hop
    rcases hop with rfl | rfl | rfl | rfl | rfl
    · trivial
    · trivial
    · exact ⟨rfl, rfl⟩
    · exact ⟨rfl, rfl⟩
    · trivial
  ⟨⟨rfl, rfl⟩, hops,
    (events_cache_is_table envDenied ⟨sampleRows, 3⟩ _ ⟨rfl, rfl⟩ hops).1⟩

/-- C8 as stated fails: after launch, `editEvent` on row 2 and a successful `updateEvent`
the selected event is still the edited row, not null; and a successful `addEvent` with
new drafts after that still leaves it selected. -/
theorem success_keeps_selectedEvent :
    (run [.editEvent sampleRow2, .updateEvent envDenied]
      (mount envDenied ⟨sampleRows, 3⟩)).app.title = "" ∧
    (run [.editEvent sampleRow2, .updateEvent envDenied]
      (mount envDenied ⟨sampleRows, 3⟩)).app.selectedEvent = some sampleRow2 ∧
    (run [.editEvent sampleRow2, .updateEvent envDenied]
      (mount envDenied ⟨sampleRows, 3⟩)).app.selectedEvent ≠ none ∧
    (run [.editEvent sampleRow2, .updateEvent envDenied, .setTitle "T", .setDescription "D",
      .addEvent envDenied] (mount envDenied ⟨sampleRows, 3⟩)).app.title = "" ∧
    (run [.editEvent sampleRow2, .updateEvent envDenied, .setTitle "T", .setDescription "D",
      .addEvent envDenied] (mount envDenied ⟨sampleRows, 3⟩)).db.rows.length = 4 ∧
    (run [.editEvent sampleRow2, .updateEvent envDenied, .setTitle "T", .setDescription "D",
      .addEvent envDenied] (mount envDenied ⟨sampleRows, 3⟩)).app.selectedEvent =
      some sampleRow2 := by
  decide

/-- C8 (amended): after a successful `addEvent` the draft title and description are ""
and the transient date is the moment of the success callback, while the selected event,
the modal visibility, the editing flag and the edit id keep their values; after a
successful `updateEvent` the draft title and description are "", the transient date is
the moment of the success callback, the editing flag is false and the edit id is null,
while the selected event and the modal visibility keep their values. -/
theorem success_resets_drafts (env : Env) (wa wu : World) (photo : Option String)
    (hT : wa.app.title ≠ "") (hD : wa.app.description ≠ "")
    (hphoto : (selectImage env wa).2 = some photo)
    (hw : env.writeFails = false) (hid : wa.db.nextRowid ≤ maxRowid) :
    ((addEvent env wa).app.title = "" ∧
     (addEvent env wa).app.description = "" ∧
     (addEvent env wa).app.date = ⟨env.nowAtCallback⟩ ∧
     (addEvent env wa).app.selectedEvent = wa.app.selectedEvent ∧
     (addEvent env wa).app.modalVisible = wa.app.modalVisible ∧
     (addEvent env wa).app.isEditing = wa.app.isEditing ∧
     (addEvent env wa).app.editId = wa.app.editId) ∧
    ((updateEvent env wu).app.title = "" ∧
     (updateEvent env wu).app.description = "" ∧
     (updateEvent env wu).app.date = ⟨env.nowAtCallback⟩ ∧
     (updateEvent env wu).app.isEditing = false ∧
     (updateEvent env wu).app.editId = none ∧
     (updateEvent env wu).app.selectedEvent = wu.app.selectedEvent ∧
     (updateEvent env wu).app.modalVisible = wu.app.modalVisible) := by
  constructor
  · obtain ⟨t, ht, -, -⟩ := selectImage_world env wa
    have hex : ¬ (maxRowid < wa.db.nextRowid) := by omega
    rw [addEvent_of_drafts env wa hT hD, hphoto, ht]
    simp only [World.emit, Database.exec, hw, hex, Bool.false_eq_true, false_or, if_false]
    rw [refreshEvents_app]
    exact ⟨rfl, rfl, rfl, rfl, rfl, rfl, rfl⟩
  · rw [updateEvent_ok env wu hw, refreshEvents_app]
    exact ⟨rfl, rfl, rfl, rfl, rfl, rfl, rfl⟩

theorem success_resets_drafts_witness :
    sampleDraft.app.title ≠ "" ∧ sampleDraft.app.description ≠ "" ∧
    (selectImage envDenied sampleDraft).2 = some none ∧
    envDenied.writeFails = false ∧ sampleDraft.db.nextRowid ≤ maxRowid ∧
    (addEvent envDenied sampleDraft).app.title = "" ∧
    (updateEvent envDenied (editEvent sampleRow2 sampleWorld)).app.editId = none :=
  have h := success_resets_drafts envDenied sampleDraft (editEvent sampleRow2 sampleWorld) none
    (by decide) (by decide) (by decide) rfl (by decide)
  ⟨by decide, by decide, by decide, rfl, by decide, h.1.1, h.2.2.2.2.2.1⟩

theorem addEvent_date (env : Env) (w : World) :
    (addEvent env w).app.date = w.app.date ∨ (addEvent env w).app.date = ⟨env.nowAtCallback⟩ := by
  by_cases he : w.app.title = "" ∨ w.app.description = ""
  · left; rw [addEvent_of_empty_draft env w he]; rfl
  · have hT : w.app.title ≠ "" := fun c => he (Or.inl c)
    have hD : w.app.description ≠ "" := fun c => he (Or.inr c)
    obtain ⟨t, ht, -, -⟩ := selectImage_world env w
    rw [addEvent_of_drafts env w hT hD, ht]
    cases (selectImage env w).2 with
    | none => left; rfl
    | some photo =>
      simp only [World.emit]
      cases hx : Database.exec w.db env.writeFails (Statement.insert w.app.title
          w.app.description (formattedDate env.localTZA ⟨env.now⟩) photo) with
      | none => left; rfl
      | some p => right; rw [refreshEvents_app]

theorem updateEvent_date (env : Env) (w : World) :
    (updateEvent env w).app.date = w.app.date ∨
      (updateEvent env w).app.date = ⟨env.nowAtCallback⟩ := by
  simp only [updateEvent, World.emit]
  cases hx : Database.exec w.db env.writeFails (Statement.update w.app.title
      w.app.description w.app.date.toISOString w.app.editId) with
  | none => left; rfl
  | some p => right; rw [refreshEvents_app]

theorem deleteEvent_date (id : Nat) (env : Env) (w : World) :
    (deleteEvent id env w).app.date = w.app.date := by
  simp only [deleteEvent, World.emit]
  cases hx : Database.exec w.db env.writeFails (Statement.delete id) with
  | none => rfl
  | some p => rw [refreshEvents_app]

theorem apply_date (op : Op) (w : World) :
    (op.apply w).app.date = w.app.date ∨
      ∃ t, op.callbackTime = some t ∧ (op.apply w).app.date = ⟨t⟩ := by
  cases op with
  | addEvent env =>
    rcases addEvent_date env w with h | h
    · exact Or.inl h
    · exact Or.inr ⟨env.nowAtCallback, rfl, h⟩
  | updateEvent env =>
    rcases updateEvent_date env w with h | h
    · exact Or.inl h
    · exact Or.inr ⟨env.nowAtCallback, rfl, h⟩
  | deleteEvent id env => exact Or.inl (deleteEvent_date id env w)
  | refreshEvents env =>
    left
    show (refreshEvents env w).app.date = w.app.date
    rw [refreshEvents_app]
  | editEvent event => left; rfl
  | viewDetails item => left; rfl
  | closeModal => left; rfl
  | setTitle text => left; rfl
  | setDescription text => left; rfl

theorem run_date (ops : List Op) (w : World) :
    (run ops w).app.date.time ∈ w.app.date.time :: ops.filterMap Op.callbackTime := by
  induction ops generalizing w with
  | nil => simp [run]
  | cons op rest ih =>
    have h := ih (op.apply w)
    have hrun : run (op :: rest) w = run rest (op.apply w) := rfl
    rw [hrun]
    rcases apply_date op w with hd | ⟨t, ht, hd⟩
    · rw [hd] at h
      rcases List.mem_cons.mp h with h | h
      · exact List.mem_cons.mpr (Or.inl h)
      · refine List.mem_cons.mpr (Or.inr ?_)
        rw [List.filterMap_cons]
        cases op.callbackTime with
        | none => exact h
        | some t => exact List.mem_cons_of_mem _ h
    · rw [hd] at h
      refine List.mem_cons.mpr (Or.inr ?_)
      rw [List.filterMap_cons, ht]
      exact h

theorem mount_date (env : Env) (db : Database) : (mount env db).app.date = ⟨env.now⟩ := by
  rw [mount, refreshEvents_app]
  simp only [setupDatabase, World.emit]
  cases Database.exec db env.writeFails Statement.createTable <;> rfl

/-- C9 as stated fails: the application is launched at 22:13:20.123, the edit of row 2 is
initiated one minute later, at t = 1700000060123, and `updateEvent` follows with nothing
in between; the UPDATE carries the launch moment, not the rendering of t. -/
theorem updateEvent_writes_launch_date :
    statements (updateEvent envDenied
      (editEvent sampleRow2 (mount envDenied ⟨sampleRows, 3⟩))).trace =
      [.createTable, .selectAll,
       .update "b" "second" "2023-11-14T22:13:20.123Z" (some 2), .selectAll] ∧
    (⟨1700000060123⟩ : JSDate).toISOString = "2023-11-14T22:14:20.123Z" ∧
    (⟨2, "b", "second", (⟨1700000060123⟩ : JSDate).toISOString, some "file://p.jpg"⟩ : Event) ∉
      (updateEvent envDenied (editEvent sampleRow2 (mount envDenied ⟨sampleRows, 3⟩))).db.rows ∧
    (⟨2, "b", "second", "2023-11-14T22:13:20.123Z", some "file://p.jpg"⟩ : Event) ∈
      (updateEvent envDenied (editEvent sampleRow2 (mount envDenied ⟨sampleRows, 3⟩))).db.rows := by
  decide

/-- C9 (amended): in an edit session, `editEvent r` directly followed by `updateEvent`,
the date that `updateEvent` writes is the ISO-8601 rendering of the transient date as it
stood when `editEvent` was invoked.  `editEvent` does not set the transient date; after
launch and any sequence of actions it is the launch moment or the moment of the success
callback of an earlier create or update. -/
theorem updateEvent_writes_transient_date (env : Env) (w : World) (r : Event) :
    (∃ rest, statements (updateEvent env (editEvent r w)).trace =
      statements w.trace ++
        Statement.update r.title r.description w.app.date.toISOString (some r.id) :: rest) ∧
    (editEvent r w).app.date = w.app.date ∧
    (∀ (launch : Env) (db : Database) (ops : List Op),
      (run ops (mount launch db)).app.date.time ∈
        launch.now :: ops.filterMap Op.callbackTime) := by
  refine ⟨?_, rfl, ?_⟩
  · simp only [updateEvent, World.emit, editEvent]
    cases hx : Database.exec w.db env.writeFails (Statement.update r.title r.description
        w.app.date.toISOString (some r.id)) with
    | none => exact ⟨[], by simp [statements]⟩
    | some p =>
      simp only [refreshEvents, World.emit, Database.exec]
      cases env.readFails
      · exact ⟨[.selectAll], by simp [statements]⟩
      · exact ⟨[.selectAll], by simp [statements]⟩
  · intro launch db ops
    have h := run_date ops (mount launch db)
    rw [mount_date] at h
    exact h

/-- C10: when the INSERT of `addEvent` (drafts non-empty), the UPDATE of `updateEvent`
or the DELETE of `deleteEvent` fails, the table is unchanged, every cell of the
component state (cached list, drafts, transient date, selected event, modal visibility,
editing flag, edit id) is unchanged, no message is shown and no refresh is issued. -/
theorem write_failure_changes_nothing (enva env : Env) (wa w : World) (id : Nat)
    (hT : wa.app.title ≠ "") (hD : wa.app.description ≠ "")
    (hfa : enva.writeFails = true ∨ maxRowid < wa.db.nextRowid)
    (hf : env.writeFails = true) :
    ((addEvent enva wa).db = wa.db ∧ (addEvent enva wa).app = wa.app ∧
     alerts (addEvent enva wa).trace = alerts wa.trace ∧
     (statements (addEvent enva wa).trace).count .selectAll =
       (statements wa.trace).count .selectAll) ∧
    ((updateEvent env w).db = w.db ∧ (updateEvent env w).app = w.app ∧
     alerts (updateEvent env w).trace = alerts w.trace ∧
     statements (updateEvent env w).trace = statements w.trace ++
       [.update w.app.title w.app.description w.app.date.toISOString w.app.editId]) ∧
    ((deleteEvent id env w).db = w.db ∧ (deleteEvent id env w).app = w.app ∧
     alerts (deleteEvent id env w).trace = alerts w.trace ∧
     statements (deleteEvent id env w).trace = statements w.trace ++ [.delete id]) := by
  refine ⟨?_, ?_, ?_⟩
  · obtain ⟨t, ht, hta, hts⟩ := selectImage_world enva wa
    rw [addEvent_of_drafts enva wa hT hD, ht]
    cases (selectImage enva wa).2 with
    | none =>
      refine ⟨rfl, rfl, ?_, ?_⟩
      · simp [alerts_append, hta]
      · simp [statements_append, hts]
    | some photo =>
      simp only [World.emit, Database.exec, if_pos hfa]
      refine ⟨trivial, trivial, ?_, ?_⟩
      · simp [alerts_append, hta]; simp [alerts]
      · simp [statements_append, hts]; simp [statements]
  · simp only [updateEvent, World.emit, Database.exec, hf, if_true]
    exact ⟨trivial, trivial, by simp [alerts], by simp [statements]⟩
  · simp only [deleteEvent, World.emit, Database.exec, hf, if_true]
    exact ⟨trivial, trivial, by simp [alerts], by simp [statements]⟩

theorem write_failure_changes_nothing_witness :
    sampleDraft.app.title ≠ "" ∧ sampleDraft.app.description ≠ "" ∧
    (envWriteFails.writeFails = true ∨ maxRowid < sampleDraft.db.nextRowid) ∧
    envWriteFails.writeFails = true ∧
    (addEvent envWriteFails sampleDraft).app = sampleDraft.app ∧
    (updateEvent envWriteFails (editEvent sampleRow2 sampleWorld)).db = sampleWorld.db ∧
    (deleteEvent 2 envWriteFails sampleWorld).db = sampleWorld.db :=
  have h := write_failure_changes_nothing envWriteFails envWriteFails sampleDraft
    (editEvent sampleRow2 sampleWorld) 2 (by decide) (by decide) (Or.inl rfl) rfl
  have h2 := write_failure_changes_nothing envWriteFails envWriteFails sampleDraft
    sampleWorld 2 (by decide) (by decide) (Or.inl rfl) rfl
  ⟨by decide, by decide, Or.inl rfl, rfl, h.1.2.1, h.2.1.1, h2.2.2.1⟩

end EventLog
